import Mathlib

/-!
Verification development for the results-persistence layer of the
keplercompute/pymeasure repository (`pymeasure/experiment/results.py`).

The Python source is shallowly embedded: each relevant Python function is
translated into an executable Lean definition over explicit data.  Files are
modelled at line granularity (a file is the list of its text lines), strings
are Lean `String`s and numeric values are `ℚ` (all quantities appearing in the
claims are exactly representable decimals).  External collaborators are
modelled as follows:

* `pint` (unit registry): a small registry of the units the code and the
  claims mention (`V`, `mV`, `A`, `s`, `seconds`), each with a dimension tag
  and a rational scale to its base unit.  `ureg.Quantity(text)` is
  `parseQuantity`, `.m_as` is dimension-checked rescaling, and
  `DimensionalityError` / `UndefinedUnitError` are the corresponding `none`
  and mismatch branches.
* `pandas.read_csv`: comment handling (`comment='#'` discards the remainder
  of a line after the first `#`, blank results are skipped), `skiprows`
  (drops raw leading lines), `header=0` (the first surviving line is consumed
  as the header row).  A reader over a region with no surviving line raises
  `EmptyDataError` at construction time; an exhausted chunk iterator makes
  `pd.concat` raise, while `TextFileReader.read()` on it returns an empty
  frame that keeps the parsed columns.
* `logging`: warnings are counted instead of written to a logger.
* the `Procedure` collaborator (`pymeasure/experiment/procedure.py`, not part
  of the given sources): modelled from the spec's collaborator contract — an
  ordered mapping of parameter objects (attribute key, display name), a fixed
  `DATA_COLUMNS` list, construction with no arguments, applying values by
  name, and a derived-metadata refresh.
-/

namespace PyMeasure

/-! ## Association lists (Python `dict` with insertion order) -/

/-- Lookup in an insertion-ordered association list (`d[k]` / `k in d`). -/
def lookupA {α : Type} (l : List (String × α)) (k : String) : Option α :=
  match l with
  | [] => none
  | (k0, v) :: rest => if k0 = k then some v else lookupA rest k

/-- Python `d[k] = v`: replace the value of an existing key in place,
otherwise append the new key at the end (insertion order). -/
def setA {α : Type} (l : List (String × α)) (k : String) (v : α) :
    List (String × α) :=
  match l with
  | [] => [(k, v)]
  | (k0, v0) :: rest =>
    if k0 = k then (k0, v) :: rest else (k0, v0) :: setA rest k v

/-- The keys of an association list, in order. -/
def keysA {α : Type} (l : List (String × α)) : List String :=
  l.map Prod.fst

theorem lookupA_eq_none {α : Type} (l : List (String × α)) (k : String)
    (h : k ∉ keysA l) : lookupA l k = none := by
  induction l with
  | nil => rfl
  | cons hd tl ih =>
    simp [keysA] at h
    simp [lookupA, h.1, ih (by simp [keysA, h.2]), Ne.symm h.1]

/-! ## Exact numbers (Python floats at the claims' inputs)

Python floats produced by the code at the claimed inputs are exactly
representable decimals, so they are modelled as exact fractions.  A `Frac` is
a possibly unnormalized integer pair (Lean's `ℚ` normalizes through functions
the kernel cannot reduce, so we keep our own pair and normalize only when
rendering, with the kernel-accelerated `Nat.gcd`). -/

structure Frac where
  num : Int
  den : Nat
deriving DecidableEq, Repr

/-- Fraction multiplication (denominators stay positive by construction). -/
def Frac.mul (a b : Frac) : Frac := ⟨a.num * b.num, a.den * b.den⟩

/-- Fraction division by a positive fraction (all unit scales are positive). -/
def Frac.div (a b : Frac) : Frac := ⟨a.num * b.den, a.den * b.num.natAbs⟩

def Frac.ofNat (n : Nat) : Frac := ⟨n, 1⟩

/-- Decimal digits of `n` shifted `k` places right: renders `n / 10^k`. -/
def decShiftStr (n : Nat) (k : Nat) : String :=
  let s := Nat.repr n
  let s := if s.length ≤ k then
      String.mk (List.replicate (k + 1 - s.length) '0') ++ s else s
  String.mk (s.data.take (s.length - k)) ++ "." ++
    String.mk (s.data.drop (s.length - k))

/-- Python float f-string formatting of an exactly-decimal fraction: the
plain decimal expansion, an integral float printing with a trailing `.0`
(e.g. formatting `1.0` gives the text 1.0). -/
def pyFloatStr (q : Frac) : String :=
  let g := Nat.gcd q.num.natAbs q.den
  let n := q.num.natAbs / g
  let d := q.den / g
  let sign := if q.num < 0 then "-" else ""
  if d = 1 then sign ++ Nat.repr n ++ ".0"
  else
    match (List.range 40).find? (fun k => (10 ^ k : Nat) % d = 0) with
    | some k => sign ++ decShiftStr (n * (10 ^ k) / d) k
    | none => sign ++ Nat.repr n ++ "/" ++ Nat.repr d

example : pyFloatStr ⟨1, 1⟩ = "1.0" := by decide
example : pyFloatStr ⟨5, 2⟩ = "2.5" := by decide
example : pyFloatStr ⟨1000, 1000⟩ = "1.0" := by decide
example : pyFloatStr ⟨1, 1000⟩ = "0.001" := by decide

/-! ## A small model of the pint unit registry -/

/-- A physical unit: a dimension tag and the positive factor converting a
magnitude in this unit to the base unit of the dimension. -/
structure PhysUnit where
  dim : String
  scale : Frac
deriving DecidableEq, Repr

/-- The registry entries needed by the source and the claims. -/
def unitTable : List (String × PhysUnit) :=
  [("V", ⟨"voltage", ⟨1, 1⟩⟩), ("mV", ⟨"voltage", ⟨1, 1000⟩⟩),
   ("A", ⟨"current", ⟨1, 1⟩⟩), ("mA", ⟨"current", ⟨1, 1000⟩⟩),
   ("s", ⟨"time", ⟨1, 1⟩⟩), ("seconds", ⟨"time", ⟨1, 1⟩⟩),
   ("second", ⟨"time", ⟨1, 1⟩⟩)]

/-- Parse an unsigned decimal literal (digits, optional point). -/
def parseDec (s : String) : Option Frac :=
  match s.data.splitOn '.' with
  | [ds] =>
    if ds ≠ [] ∧ ds.all Char.isDigit then
      some ⟨(ds.foldl (fun a c => 10 * a + (c.toNat - 48)) 0 : Nat), 1⟩
    else none
  | [ds, fs] =>
    if ds ≠ [] ∧ fs ≠ [] ∧ ds.all Char.isDigit ∧ fs.all Char.isDigit then
      some ⟨((ds ++ fs).foldl (fun a c => 10 * a + (c.toNat - 48)) 0 : Nat),
        10 ^ fs.length⟩
    else none
  | _ => none

/-- Signed decimal literal. -/
def parseNum (s : String) : Option Frac :=
  match s.data with
  | '-' :: rest => (parseDec (String.mk rest)).map (fun f => ⟨-f.num, f.den⟩)
  | _ => parseDec s

/-- Model of `ureg.Quantity(text)`: either `number unit`, a bare unit
(magnitude 1), or a bare number (dimensionless).  `none` models
`pint.UndefinedUnitError`. -/
def parseQuantity (s : String) : Option (Frac × PhysUnit) :=
  match (s.data.splitOn ' ').filter (· ≠ []) with
  | [t] =>
    match parseNum (String.mk t) with
    | some q => some (q, ⟨"dimensionless", ⟨1, 1⟩⟩)
    | none => (lookupA unitTable (String.mk t)).map (fun u => (⟨1, 1⟩, u))
  | [a, b] => do
    let q ← parseNum (String.mk a)
    let u ← lookupA unitTable (String.mk b)
    pure (q, u)
  | _ => none

example : parseQuantity "1000 mV" = some (⟨1000, 1⟩, ⟨"voltage", ⟨1, 1000⟩⟩) := by
  decide
example : parseQuantity "5 seconds" = some (⟨5, 1⟩, ⟨"time", ⟨1, 1⟩⟩) := by decide

/-! ## Python record values

The values a record (`dict`) can hold when handed to `CSVFormatter.format`.
`pnan` is `float("nan")`, the default of `record.get(x, float("nan"))`; it is
an instance of Python `float`. -/

inductive PyValue
  | pstr (s : String)
  | pquant (mag : Frac) (u : PhysUnit)
  | pbool (b : Bool)
  | pfloatV (q : Frac)
  | pintV (z : Int)
  | pnan
deriving DecidableEq, Repr

/-- Python f-string rendering of a plain value (the `f"-str-" (value)` of the
source's no-units else branch). -/
def pyRepr : PyValue → String
  | .pstr s => s
  | .pquant m _ => pyFloatStr m
  | .pbool b => if b then "True" else "False"
  | .pfloatV q => pyFloatStr q
  | .pintV z => Int.repr z
  | .pnan => "nan"

/-! ## CSVFormatter._parse_columns

The source extracts a parenthesized unit token from each column name with the
regex `\((?P<units>[\w/\(\)\*\t]+)\)` and feeds it to `ureg.Quantity`.  The
extractor below models the regex for unit tokens without nested parentheses
(the only kind the repository and the claims use): the first `(token)` whose
token is a nonempty run of word characters, `/`, `*` or tab. -/

def unitCharP (c : Char) : Bool :=
  c.isAlphanum || c = '_' || c = '/' || c = '*' || c = '\t'

/-- Read the chars up to a closing `)` if all of them match `unitCharP`. -/
def takeUnitAux : List Char → Option (List Char)
  | [] => none
  | c :: cs =>
    if c = ')' then some []
    else if unitCharP c then (takeUnitAux cs).map (c :: ·)
    else none

/-- First parenthesized unit token of a column name, if any. -/
def extractParen : List Char → Option (List Char)
  | [] => none
  | c :: cs =>
    if c = '(' then
      match takeUnitAux cs with
      | some u => if u.isEmpty then extractParen cs else some u
      | none => extractParen cs
    else extractParen cs

example : extractParen "Voltage (V)".data = some ['V'] := by decide
example : extractParen "Iterations".data = none := by decide

/-- Model of `CSVFormatter._parse_columns`: the units mapping built from the
column names.  A parenthesized token that is not a known unit makes
`ureg.Quantity` raise `UndefinedUnitError`, which `_parse_columns` does not
catch — modelled as `Except.error`. -/
def parseColumnsE (columns : List String) :
    Except Unit (List (String × PhysUnit)) :=
  columns.foldlM (fun acc col =>
    match extractParen col.data with
    | none => pure acc
    | some tok =>
      match parseQuantity (String.mk tok) with
      | some (_, u) => pure (setA acc col u)
      | none => Except.error ()) []

example : parseColumnsE ["Voltage (V)", "Iterations"] =
    Except.ok [("Voltage (V)", ⟨"voltage", ⟨1, 1⟩⟩)] := by rfl

/-! ## CSVFormatter.format

One field of the formatted line, for column `x` with units lookup state
`units` and value `value = record.get(x, float("nan"))`.  Returns the field
text, the updated units mapping (`self.units` is mutated when a unit-bearing
quantity is written to an untagged column) and the number of warnings logged
(the `log.info` of the mutation branch is not a warning). -/

/-- The `if isinstance(value, str): try value = ureg.Quantity(value) except
UndefinedUnitError: warn` prelude of the tagged-column branch: the value
(possibly promoted to a quantity) and the warning count. -/
def strToQuantity (value : PyValue) : PyValue × Nat :=
  match value with
  | .pstr s =>
    match parseQuantity s with
    | some (m, qu) => (.pquant m qu, 0)
    | none => (.pstr s, 1)
  | v => (v, 0)

def formatField (units : List (String × PhysUnit)) (x : String)
    (value : PyValue) : String × List (String × PhysUnit) × Nat :=
  match lookupA units x with
  | some u =>
    match strToQuantity value with
    | (.pquant m qu, w) =>
      -- `value.m_as(units)`; DimensionalityError writes nan and warns
      if qu.dim = u.dim then ((m.mul qu.scale).div u.scale |> pyFloatStr, units, w)
      else ("nan", units, w + 1)
    | (.pbool _, w) => ("nan", units, w + 1)
    | (.pfloatV q, w) => (pyFloatStr q, units, w)
    | (.pintV z, w) => (Int.repr z, units, w)
    | (.pnan, w) => ("nan", units, w)
    | (.pstr _, w) => ("nan", units, w + 1)
  | none =>
    match value with
    | .pquant m qu =>
      if qu.dim = "dimensionless" then (pyFloatStr m, units, 0)
      else ((m.mul qu.scale) |> pyFloatStr, setA units x ⟨qu.dim, ⟨1, 1⟩⟩, 0)
    | v => (pyRepr v, units, 0)

/-- The loop of `CSVFormatter.format`: one field per declared column, in
declared order, threading the units mapping. -/
def formatGo (record : List (String × PyValue))
    (units : List (String × PhysUnit)) :
    List String → List String × List (String × PhysUnit) × Nat
  | [] => ([], units, 0)
  | x :: xs =>
    let r1 := formatField units x ((lookupA record x).getD .pnan)
    let r2 := formatGo record r1.2.1 xs
    (r1.1 :: r2.1, r2.2.1, r1.2.2 + r2.2.2)

/-- Model of `CSVFormatter.format`: the list of fields (the returned line is
their `DELIMITER`-join), the updated units state and the warning count. -/
def csvFormat (columns : List String) (units : List (String × PhysUnit))
    (record : List (String × PyValue)) :
    List String × List (String × PhysUnit) × Nat :=
  formatGo record units columns

/-- Model of `CSVFormatter.format_column_header`: the fields of the column
header line (the line itself is their `DELIMITER`-join). -/
def formatColumnHeaderFields (columns : List String) : List String := columns

example :
    csvFormat ["Voltage (V)"] [("Voltage (V)", ⟨"voltage", ⟨1, 1⟩⟩)]
      [("Voltage (V)", .pstr "1000 mV")] =
    (["1.0"], [("Voltage (V)", ⟨"voltage", ⟨1, 1⟩⟩)], 0) := by decide

example :
    csvFormat ["Voltage (V)"] [("Voltage (V)", ⟨"voltage", ⟨1, 1⟩⟩)]
      [("Voltage (V)", .pstr "5 seconds")] =
    (["nan"], [("Voltage (V)", ⟨"voltage", ⟨1, 1⟩⟩)], 1) := by decide

/-! ## Text lines

A text block is modelled by the list of its lines; joining with the newline
separator and re-splitting on it are exact inverses when no line contains a
newline (`List.splitOn_intercalate`). -/

/-- Join lines with the `LINE_BREAK` separator (no trailing newline). -/
def joinLines (ls : List String) : String :=
  String.mk (List.intercalate ['\n'] (ls.map String.data))

/-- Split a text block on `LINE_BREAK` (Python `text.split("\n")`). -/
def splitLines (s : String) : List String :=
  (s.data.splitOn '\n').map String.mk

theorem splitLines_joinLines (ls : List String) (hnl : ∀ l ∈ ls, '\n' ∉ l.data)
    (hne : ls ≠ []) : splitLines (joinLines ls) = ls := by
  unfold splitLines joinLines
  show (List.splitOn '\n' (List.intercalate ['\n'] (ls.map String.data))).map
      String.mk = ls
  rw [List.splitOn_intercalate _ _ (by simpa using hnl)
    (by intro h; exact hne (List.map_eq_nil_iff.mp h))]
  have h : ∀ s : String, String.mk s.data = s := fun s => rfl
  simp [List.map_map, Function.comp_def, h]

/-- Escape of a single character under `unicode_escape`. -/
def escChar (c : Char) : List Char :=
  if c = '\n' then ['\\', 'n']
  else if c = '\t' then ['\\', 't']
  else if c = '\r' then ['\\', 'r']
  else if c = '\\' then ['\\', '\\']
  else [c]

/-- Python `str.encode("unicode_escape")` on the characters the claims
exercise: backslash-escapes newline, tab, carriage return and backslash
itself (the full codec also escapes other control and non-latin characters;
none appear in the claims). -/
def unicodeEscape (s : String) : String :=
  String.mk (s.data.foldr (fun c acc => escChar c ++ acc) [])

example : unicodeEscape "a\nb" = "a\\nb" := by decide

theorem escChar_no_newline (c : Char) : '\n' ∉ escChar c := by
  unfold escChar
  split
  · decide
  · split
    · decide
    · split
      · decide
      · split
        · decide
        · rename_i h1 _ _ _
          intro hm
          rw [List.mem_singleton] at hm
          exact h1 hm.symm

theorem unicodeEscape_no_newline (s : String) :
    '\n' ∉ (unicodeEscape s).data := by
  unfold unicodeEscape
  show '\n' ∉ s.data.foldr (fun c acc => escChar c ++ acc) []
  induction s.data with
  | nil => simp
  | cons c cs ih =>
    simp only [List.foldr_cons, List.mem_append]
    rintro (h | h)
    · exact escChar_no_newline c h
    · exact ih h

/-! ## Python exceptions -/

/-- The exceptions the embedded code can raise (pandas errors included). -/
inductive PyErr
  | valueError
  | typeError
  | attributeError
  | notImplementedError
  | partitionError
  | missingParam (name : String)
  | undefinedUnitError
  | emptyDataError
  | keyError
deriving DecidableEq, Repr

/-! ## The Procedure collaborator and get_proc_from_params -/

/-- One entry of `procedure.parameter_objects()`:
`attr` is the dict key (the class attribute name used by `setattr`), `name`
is the parameter's display name (`parameter.name`).
Modelled from the spec: the Procedure collaborator exposes an ordered
mapping of parameter objects, each with a stable name and current value
(`pymeasure/experiment/procedure.py` is not part of the given sources). -/
structure ParamObj where
  attr : String
  name : String
deriving DecidableEq, Repr

/-- A resolvable procedure class: module path, class name, declared
parameter objects and declared `DATA_COLUMNS`. -/
structure ProcClassM where
  modName : String
  clsName : String
  paramObjs : List ParamObj
  dataColumns : List String
deriving DecidableEq, Repr

/-- What the Python variable `procedure_class` can hold when
`get_proc_from_params` runs: the class-name string scraped from a header by
`get_params_from_header`, or an actual class object passed by a caller. -/
inductive ClassRef
  | asString (s : String)
  | asClass (c : ProcClassM)
deriving DecidableEq, Repr

/-- A reconstructed procedure: either an instance of a known class or the
`UnknownProcedure` placeholder holding the raw header parameters.
Modelled from the spec: `UnknownProcedure` holds the raw parameter values
opaquely and declares no parameter objects and no fixed data columns. -/
inductive ProcKind
  | known (c : ProcClassM)
  | unknown (raw : List (String × String))
deriving DecidableEq, Repr

/-- The `parameter_objects()` mapping of a reconstructed procedure. -/
def procParamObjs : ProcKind → List ParamObj
  | .known c => c.paramObjs
  | .unknown _ => []

/-- A procedure instance after parameter application: its kind and the
`setattr` assignments performed, in order (attribute name, value text). -/
structure ProcM where
  kind : ProcKind
  applied : List (String × String)
deriving DecidableEq, Repr

/-- An import environment: module name to module contents (class name to
class), for `import_module` / `getattr`. -/
def ImportEnv : Type := List (String × List (String × ProcClassM))

/-- The parameter-application loop of `get_proc_from_params`: for each
declared parameter object, look its display name up among the header
parameters and apply it by `setattr`; a declared name absent from the header
raises (`Missing parameter when loading class`). -/
def applyParams (parameters : List (String × String)) :
    List ParamObj → Except PyErr (List (String × String))
  | [] => .ok []
  | p :: rest =>
    match lookupA parameters p.name with
    | some v => (applyParams parameters rest).map (fun r => (p.attr, v) :: r)
    | none => .error (.missingParam p.name)

/-- Model of `ResultsBase.get_proc_from_params`.  Mirrors the source
line by line:

* `if procedure_class is not None: procedure = procedure_class()` — calling a
  class object instantiates it; calling the class-name *string* produced by
  header parsing raises `TypeError` (a `str` is not callable);
* `if procedure is None:` — reachable only when `procedure_class` is `None`,
  in which case `ValueError` is raised at once, so the `import_module` /
  `getattr` / `UnknownProcedure` fallback below it is dead code (translated
  anyway, warnings not tracked);
* the parameter loop (`applyParams`), then `refresh_parameters()` (modelled
  from the spec as a derived-metadata refresh with no observable state
  here). -/
def getProcFromParams (env : ImportEnv) (parameters : List (String × String))
    (procModule : Option String) (classRef : Option ClassRef) :
    Except PyErr ProcM := do
  let proc0 : Option ProcKind ←
    match classRef with
    | some (.asClass c) => pure (some (.known c))
    | some (.asString _) => throw PyErr.typeError
    | none => pure none
  let kind : ProcKind ←
    match proc0 with
    | some k => pure k
    | none =>
      match classRef with
      | none => throw PyErr.valueError
      | some cr =>
        -- dead in every execution: proc0 = none forces classRef = none
        match procModule.bind (lookupA env) with
        | none => pure (ProcKind.unknown parameters)
        | some contents =>
          match cr with
          | .asClass c => pure (ProcKind.known c)
          | .asString s =>
            match lookupA contents s with
            | some c => pure (ProcKind.known c)
            | none => throw PyErr.attributeError
  let applied ← applyParams parameters (procParamObjs kind)
  return ⟨kind, applied⟩

/-! ## CSVResults.create_header -/

/-- The uncommented header lines built by `CSVResults.create_header`: the
`Procedure: <module.Class>` line (`fq` is the fully qualified class name the
source scrapes out of `repr(procedure_class)`), the `Parameters:` marker, one
tab-indented `name: value` line per parameter with the value text
unicode-escaped, and the `Data:` marker. -/
def headerBodyLines (fq : String) (params : List (String × String)) :
    List String :=
  ("Procedure: <" ++ fq ++ ">") :: "Parameters:" ::
    (params.map (fun p => "\t" ++ p.1 ++ ": " ++ unicodeEscape p.2) ++ ["Data:"])

/-- The comment-prefixed header lines as written to file. -/
def createHeaderLines (fq : String) (params : List (String × String)) :
    List String :=
  (headerBodyLines fq params).map (fun l => "#" ++ l)

/-- Model of `CSVResults.create_header`: the header text, newline-joined with
a trailing newline.  The method also assigns `self._header_count = len(h)`,
modelled by `headerCountOf`. -/
def createHeader (fq : String) (params : List (String × String)) : String :=
  joinLines (createHeaderLines fq params) ++ "\n"

/-- The `len(h)` assigned to `_header_count` by `create_header`. -/
def headerCountOf (params : List (String × String)) : Int :=
  params.length + 3

/-! ## CSVResults.get_params_from_header -/

/-- Python `line[1:].partition(": ")` restricted to a found separator:
split at the first occurrence of colon-space, `none` when there is none. -/
def partitionSep : List Char → Option (List Char × List Char)
  | [] => none
  | [_] => none
  | c :: d :: rest =>
    if c = ':' ∧ d = ' ' then some ([], rest)
    else (partitionSep (d :: rest)).map (fun p => (c :: p.1, p.2))

example : partitionSep "Iterations: 10".data = some ("Iterations".data, "10".data) := by
  decide

/-- Split at the last dot: the regex `<(?:(?P<module>[^>]+)\.)?(?P<class>[^.>]+)>`
binds everything before the last dot to `module` and the rest to `class`. -/
def splitLastDot : List Char → Option (List Char) × List Char
  | [] => (none, [])
  | c :: rest =>
    match splitLastDot rest with
    | (some m, cl) => (some (c :: m), cl)
    | (none, cl) => if c = '.' then (some [], cl) else (none, c :: cl)

/-- The content of the first `<...>` group of a line (the regex search of the
`Procedure` line); `none` models `re.search` finding nothing, upon which the
source's `.group` call raises `AttributeError`. -/
def extractAngle : List Char → Option (List Char)
  | [] => none
  | c :: rest =>
    if c = '<' then
      if rest.takeWhile (· ≠ '>') ≠ [] ∧ '>' ∈ rest then
        some (rest.takeWhile (· ≠ '>'))
      else none
    else extractAngle rest

/-- Parse the `Procedure` header line into (module, class name). -/
def parseProcLine (l : List Char) : Except PyErr (Option String × String) :=
  match extractAngle l with
  | none => .error .attributeError
  | some content =>
    let (m, cl) := splitLastDot content
    .ok (m.map String.mk, String.mk cl)

example : parseProcLine "Procedure: <pkg.mod.TestProc>".data =
    .ok (some "pkg.mod", "TestProc") := by rfl

/-- The scan state of `CSVResults.get_params_from_header`. -/
structure HeadSt where
  params : List (String × String)
  pmod : Option String
  pcls : Option ClassRef
deriving Repr

/-- One line of the `get_params_from_header` loop: every line must start
with the `COMMENT` character (else `ValueError`), is then uncommented;
a line starting with `Procedure` is scanned for `<module.Class>`; a line
starting with a tab is partitioned at colon-space into a parameter entry
(no separator raises, the partition-error branch); any other line is
ignored. -/
def csvHeaderStep (st : HeadSt) (line : String) : Except PyErr HeadSt :=
  if line.data.headD ' ' = '#' then
    let t := line.data.tail
    if "Procedure".data.isPrefixOf t then
      match parseProcLine t with
      | .ok mc => .ok ⟨st.params, mc.1, some (.asString mc.2)⟩
      | .error e => .error e
    else if t.headD ' ' = '\t' then
      match partitionSep t.tail with
      | some nv =>
        .ok ⟨setA st.params (String.mk nv.1) (String.mk nv.2), st.pmod, st.pcls⟩
      | none => .error PyErr.partitionError
    else .ok st
  else .error PyErr.valueError

/-- The loop of `get_params_from_header` over the header lines (the first
raised exception aborts the whole parse). -/
def csvHeaderScan (st : HeadSt) : List String → Except PyErr HeadSt
  | [] => .ok st
  | l :: ls =>
    match csvHeaderStep st l with
    | .ok st2 => csvHeaderScan st2 ls
    | .error e => .error e

/-- Model of `CSVResults.get_params_from_header`: split the header text on
`LINE_BREAK` and scan every resulting line. -/
def csvGetParamsFromHeader (header : String) (pcArg : Option ClassRef) :
    Except PyErr (List (String × String) × Option String × Option ClassRef) :=
  (csvHeaderScan ⟨[], none, pcArg⟩ (splitLines header)).map
    (fun st => (st.params, st.pmod, st.pcls))

/-! ## ResultsBase.parse_header and CSVResults.load -/

/-- Model of the abstract `ResultsBase.get_params_from_header`, which raises
`NotImplementedError` (*Must be patched by subclass*). -/
def baseGetParamsFromHeader (_header : String) (_pcArg : Option ClassRef) :
    Except PyErr (List (String × String) × Option String × Option ClassRef) :=
  .error .notImplementedError

/-- Model of `ResultsBase.parse_header`.  The source statically calls
`ResultsBase.get_params_from_header` — the abstract stub — rather than the
subclass override (static methods do not dispatch), then feeds the result to
`get_proc_from_params`. -/
def parseHeader (env : ImportEnv) (header : String) (pcArg : Option ClassRef) :
    Except PyErr ProcM := do
  let (ps, m, c) ← baseGetParamsFromHeader header pcArg
  getProcFromParams env ps m c

/-- Python `str.strip()`. -/
def pyStrip (s : String) : String :=
  String.mk ((s.data.dropWhile Char.isWhitespace).reverse.dropWhile
    Char.isWhitespace |>.reverse)

/-- Model of `CSVResults.load`: read leading comment lines, accumulate each
stripped line followed by a newline, pass the accumulated text without its
final character to `parse_header`, then build a results object around the
reconstructed procedure (never reached, since `parse_header` raises). -/
def csvLoad (env : ImportEnv) (file : List String) : Except PyErr ProcM :=
  let headerLines := file.takeWhile (fun l => l.data.headD ' ' = '#')
  parseHeader env (joinLines (headerLines.map pyStrip)) none

/-! ## The CSV tabular store -/

/-- An in-memory table: column labels and rows of raw fields (pandas dtype
inference is abstracted away; cells are kept as the parsed field texts). -/
structure Table where
  cols : List String
  rows : List (List String)
deriving DecidableEq, Repr

/-- pandas `comment='#'`: the text of a line before its first `#` (the rest
of the line is ignored; a fully commented line reduces to the empty text). -/
def stripAtComment (line : String) : String :=
  String.mk (line.data.takeWhile (· ≠ '#'))

/-- The lines pandas actually parses from a region: comment content removed,
empty results skipped (`skip_blank_lines`). -/
def csvLines (lines : List String) : List String :=
  (lines.map stripAtComment).filter (· ≠ "")

/-- The `labels()` line: the `DELIMITER`-join of the procedure's declared
`DATA_COLUMNS` (without its trailing newline). -/
def labelsLine (dataColumns : List String) : String :=
  String.mk (List.intercalate [','] (dataColumns.map String.data))

/-- The file text produced by `CSVResults.create_resources`: the header text
followed by the labels line and its newline. -/
def createCsvText (fq : String) (params : List (String × String))
    (dataColumns : List String) : String :=
  createHeader fq params ++ labelsLine dataColumns ++ "\n"

/-- The file lines produced by `CSVResults.create_resources`: the header
block followed by the `labels()` line. -/
def createCsvFileLines (fq : String) (params : List (String × String))
    (dataColumns : List String) : List String :=
  createHeaderLines fq params ++ [labelsLine dataColumns]

/-- Python `line.split(DELIMITER)` for a data or label line. -/
def splitFields (s : String) : List String :=
  (s.data.splitOn ',').map String.mk

/-- Model of `CSVResults.reload`: `pd.read_csv(file, comment='#',
chunksize=...)`.  The first surviving line is the column header; an
exhausted chunk iterator makes the `pd.concat` inside the `try` raise, and
the `except` branch's `chunks.read()` then returns an empty frame keeping
the parsed columns — so zero data lines still give a table with the header
line's columns.  A region with no surviving line at all makes the
`pd.read_csv` call itself (outside the `try`) raise `EmptyDataError`. -/
def csvReload (fileLines : List String) : Except PyErr Table :=
  match csvLines fileLines with
  | [] => .error .emptyDataError
  | hdr :: rs => .ok ⟨splitFields hdr, rs.map splitFields⟩

/-- Model of `CSVResults.reload` on a file given as its raw text: pandas reads the
file line by line (the lines are the text split on the newline
character). -/
def csvReloadText (text : String) : Except PyErr Table :=
  csvReload (splitLines text)

/-- The CSV results state the `data` property operates on: `_header_count`
(`-1` until set), the in-memory frame `_data` (`none` until loaded) and the
procedure's declared `DATA_COLUMNS`. -/
structure CsvState where
  headerCount : Int
  dataTbl : Option Table
  dataColumns : List String
deriving DecidableEq, Repr

/-- Model of the `CSVResults.data` property.

* `_header_count == -1`: the source rebinds it to
  `len(self.create_header()[-1].split(LINE_BREAK))`; `create_header()[-1]`
  is the final character of the header text — the newline — whose split is
  two empty strings, so the recomputed count is always `2` (the correct
  count briefly assigned inside `create_header` is immediately overwritten).
* `_data` absent or empty: full `reload` inside `try`, any failure replaced
  by an empty frame over the declared columns.
* otherwise: incremental read with
  `skiprows = len(_data) + _header_count`; the `pd.read_csv` call is outside
  the `try` and raises `EmptyDataError` when no parseable line remains after
  the skip; with `header=0, names=_data.columns` the first surviving line is
  consumed as the replacement header; an empty remainder makes the
  `pd.concat` raise, which the `except: pass` swallows leaving `_data`
  unchanged; otherwise the new rows are appended. -/
def csvDataProperty (fileLines : List String) (st : CsvState) :
    Except PyErr CsvState :=
  let hc : Int := if st.headerCount = -1 then 2 else st.headerCount
  let st := { st with headerCount := hc }
  let full : Except PyErr CsvState :=
    match csvReload fileLines with
    | .ok t => .ok { st with dataTbl := some t }
    | .error _ => .ok { st with dataTbl := some ⟨st.dataColumns, []⟩ }
  match st.dataTbl with
  | none => full
  | some t =>
    if t.rows.isEmpty then full
    else
      let skiprows := ((t.rows.length : Int) + hc).toNat
      match csvLines (fileLines.drop skiprows) with
      | [] => .error .emptyDataError
      | _hdr :: rs =>
        if rs.isEmpty then .ok st
        else .ok { st with
          dataTbl := some ⟨t.cols, t.rows ++ rs.map splitFields⟩ }

/-! ## The JSON store -/

/-- A scalar a JSON column can hold. -/
inductive JScalar
  | jnum (q : Int)
  | jstr (s : String)
  | jbool (b : Bool)
deriving DecidableEq, Repr

/-- A value of a record handed to `JSONFileHandler.emit`: a scalar, a
list/tuple of scalars, or anything else (which the handler rejects). -/
inductive RVal
  | scalar (v : JScalar)
  | rlist (l : List JScalar)
  | other
deriving DecidableEq, Repr

/-- The JSON file: its single key (the encoded header) and the
column-oriented data object (column name to list of values). -/
structure JsonFile where
  header : String
  data : List (String × List JScalar)
deriving DecidableEq, Repr

/-- The file written by `JSONResults.create_resources`: header key, empty
data object. -/
def jsonCreateFile (header : String) : JsonFile :=
  ⟨header, []⟩

/-- Model of `JSONResults.reload`: an empty data object gives an empty frame
over the declared columns, otherwise the frame is the stored columns (rows
are not materialized here; only the empty case is compared). -/
def jsonReload (file : JsonFile) (dataColumns : List String) : Table :=
  if file.data.isEmpty then ⟨dataColumns, []⟩
  else ⟨file.data.map Prod.fst, []⟩

/-- The inner loop of `JSONFileHandler.emit` for a record key already
present: `for column, array in data.items()` appends `record[column]` to
*every* stored column (concatenating list values, appending scalars,
`KeyError` when the stored column is absent from the record, `TypeError` on
an unsupported value). -/
def jsonEmitApplyAll (record : List (String × RVal))
    (data : List (String × List JScalar)) :
    Except PyErr (List (String × List JScalar)) :=
  data.mapM (fun entry =>
    match lookupA record entry.1 with
    | none => .error .keyError
    | some (.rlist l) => .ok (entry.1, entry.2 ++ l)
    | some (.scalar v) => .ok (entry.1, entry.2 ++ [v])
    | some .other => .error .typeError)

/-- One outer iteration of `JSONFileHandler.emit` (`for key in
record.keys()`): a key already stored triggers the append-to-every-column
inner loop; a new key becomes a new column holding only this record's value
(a bare scalar is wrapped in a singleton list). -/
def jsonEmitKey (record : List (String × RVal))
    (data : List (String × List JScalar)) (key : String) :
    Except PyErr (List (String × List JScalar)) :=
  match lookupA data key with
  | some _ => jsonEmitApplyAll record data
  | none =>
    match lookupA record key with
    | some (.rlist l) => .ok (data ++ [(key, l)])
    | some (.scalar v) => .ok (data ++ [(key, [v])])
    | some .other => .ok (data ++ [(key, [])])
    | none => .ok data

/-- Model of `JSONFileHandler.emit`: the whole file is read, the data object
updated key by key in record order, and the whole file rewritten. -/
def jsonEmit (file : JsonFile) (record : List (String × RVal)) :
    Except PyErr JsonFile :=
  (record.foldlM (fun d entry => jsonEmitKey record d entry.1) file.data).map
    (fun d => ⟨file.header, d⟩)

/-! ## Helper lemmas -/

theorem applyParams_all (ps : List (String × String)) (objs : List ParamObj)
    (h : ∀ p ∈ objs, (lookupA ps p.name).isSome) :
    applyParams ps objs =
      .ok (objs.map (fun p => (p.attr, (lookupA ps p.name).getD ""))) := by
  induction objs with
  | nil => rfl
  | cons p rest ih =>
    obtain ⟨v, hv⟩ := Option.isSome_iff_exists.mp (h p (by simp))
    rw [List.map_cons]
    simp only [applyParams, hv, ih (fun q hq => h q (by simp [hq])),
      Except.map, Option.getD_some]

theorem applyParams_missing (ps : List (String × String)) (objs : List ParamObj)
    (h : ∃ p ∈ objs, lookupA ps p.name = none) :
    ∃ n, applyParams ps objs = .error (.missingParam n) ∧
      lookupA ps n = none ∧ n ∈ objs.map ParamObj.name := by
  induction objs with
  | nil => simp at h
  | cons p rest ih =>
    cases hv : lookupA ps p.name with
    | none => exact ⟨p.name, by simp [applyParams, hv], hv, by simp⟩
    | some v =>
      obtain ⟨q, hq, hqn⟩ := h
      rcases List.mem_cons.mp hq with rfl | hq2
      · rw [hv] at hqn; exact absurd hqn (by simp)
      · obtain ⟨n, h1, h2, h3⟩ := ih ⟨q, hq2, hqn⟩
        exact ⟨n, by simp [applyParams, hv, h1, Except.map], h2, by simp [h3]⟩

theorem getProcFromParams_asClass (env : ImportEnv)
    (ps : List (String × String)) (c : ProcClassM) :
    getProcFromParams env ps none (some (.asClass c)) =
      (applyParams ps c.paramObjs).map (fun a => ⟨.known c, a⟩) := by
  cases h : applyParams ps c.paramObjs <;>
    simp [getProcFromParams, procParamObjs, h, Except.map, bind, Except.bind,
      pure, Except.pure]

theorem formatGo_length (record : List (String × PyValue))
    (units : List (String × PhysUnit)) (cols : List String) :
    ((formatGo record units cols).1).length = cols.length := by
  induction cols generalizing units with
  | nil => rfl
  | cons x xs ih => simp [formatGo, ih]

/-! ## The claims -/

/-- C1, counterexample.  The claim says `get_proc_from_params` raises
whenever some header parameter name is absent from the class's declared
parameter set.  Here the class declares only the parameter `a` while the
header carries `a` and the extra `b`; reconstruction succeeds, silently
ignoring `b`, instead of raising. -/
theorem C1_counterexample :
    "b" ∉ (ProcClassM.mk "m" "C" [⟨"a_attr", "a"⟩] ["x"]).paramObjs.map
      ParamObj.name ∧
    getProcFromParams [] [("a", "1"), ("b", "2")] none
        (some (.asClass ⟨"m", "C", [⟨"a_attr", "a"⟩], ["x"]⟩)) =
      .ok ⟨.known ⟨"m", "C", [⟨"a_attr", "a"⟩], ["x"]⟩, [("a_attr", "1")]⟩ :=
  ⟨by decide, rfl⟩

/-- C1, amended.  `get_proc_from_params` iterates over the *class's*
declared parameter objects, not the header's entries: when every declared
display name is present among the header parameters it succeeds and applies
each declared parameter by name (header parameters unknown to the class are
silently ignored); when some declared display name is absent from the header
it raises the fatal `Missing parameter` error. -/
theorem C1_amended_holds (env : ImportEnv) (parameters : List (String × String))
    (c : ProcClassM) :
    ((∀ p ∈ c.paramObjs, (lookupA parameters p.name).isSome) →
      getProcFromParams env parameters none (some (.asClass c)) =
        .ok ⟨.known c, c.paramObjs.map
          (fun p => (p.attr, (lookupA parameters p.name).getD ""))⟩) ∧
    ((∃ p ∈ c.paramObjs, lookupA parameters p.name = none) →
      ∃ n, getProcFromParams env parameters none (some (.asClass c)) =
          .error (.missingParam n) ∧
        lookupA parameters n = none ∧ n ∈ c.paramObjs.map ParamObj.name) := by
  constructor
  · intro h
    rw [getProcFromParams_asClass, applyParams_all parameters c.paramObjs h]
    rfl
  · intro h
    obtain ⟨n, h1, h2, h3⟩ := applyParams_missing parameters c.paramObjs h
    exact ⟨n, by rw [getProcFromParams_asClass, h1]; rfl, h2, h3⟩

/-- C1, witness for the amended theorem at a concrete input: a class
declaring `a`, a header carrying `a` and the extra `x`. -/
theorem C1_amended_witness :
    getProcFromParams [] [("a", "1"), ("x", "9")] none
        (some (.asClass ⟨"m", "C", [⟨"a_attr", "a"⟩], ["col"]⟩)) =
      .ok ⟨.known ⟨"m", "C", [⟨"a_attr", "a"⟩], ["col"]⟩, [("a_attr", "1")]⟩ :=
  (C1_amended_holds [] [("a", "1"), ("x", "9")]
    ⟨"m", "C", [⟨"a_attr", "a"⟩], ["col"]⟩).1 (by decide)

/-- C2, evaluation at the failing input.  A parsed header names the module
`missing.module` (not importable) and the class `SomeProcedure`; header
parsing hands the class over as the *string* `SomeProcedure`, and
`get_proc_from_params` immediately calls it (`procedure_class()`), raising
`TypeError` — the `except ImportError` fallback to `UnknownProcedure` is
unreachable, so no placeholder procedure is ever returned. -/
theorem C2_code_bug_eval :
    getProcFromParams [] [("Voltage", "1.0")] (some "missing.module")
      (some (.asString "SomeProcedure")) = .error .typeError := rfl

/-- C3, evaluation.  `CSVResults.load` calls `ResultsBase.parse_header`,
which statically invokes the abstract `ResultsBase.get_params_from_header`
stub instead of the subclass override, so loading *any* file — well-formed
or not — raises `NotImplementedError` before a results object can be
built. -/
theorem C3_code_bug_eval (env : ImportEnv) (file : List String) :
    csvLoad env file = .error .notImplementedError := rfl

/-- C5.  Formatting with a column labelled `Voltage (V)` (whose parsed units
mapping is exactly the volt entry): the field for the value `1000 mV` is
`1.0` with no warning; the field for the dimensionally incompatible value
`5 seconds` is `nan` with one warning; and for *every* record the formatter
still returns a complete row — one field per declared column — rather than
raising. -/
theorem C5_unit_conversion :
    parseColumnsE ["Voltage (V)"] =
      .ok [("Voltage (V)", ⟨"voltage", ⟨1, 1⟩⟩)] ∧
    csvFormat ["Voltage (V)"] [("Voltage (V)", ⟨"voltage", ⟨1, 1⟩⟩)]
        [("Voltage (V)", .pstr "1000 mV")] =
      (["1.0"], [("Voltage (V)", ⟨"voltage", ⟨1, 1⟩⟩)], 0) ∧
    csvFormat ["Voltage (V)"] [("Voltage (V)", ⟨"voltage", ⟨1, 1⟩⟩)]
        [("Voltage (V)", .pstr "5 seconds")] =
      (["nan"], [("Voltage (V)", ⟨"voltage", ⟨1, 1⟩⟩)], 1) ∧
    ∀ record units,
      ((csvFormat ["Voltage (V)", "Current (A)"] units record).1).length = 2 :=
  ⟨rfl, by decide, by decide, fun record units => formatGo_length record units _⟩

/-- C9, evaluation at the failing input.  Writing the record
`x := 1, y := 2` into a JSON store whose columns `x` and `y` each hold `[0]`:
the claim says each value is appended once to its column, but the handler's
inner loop appends the whole record to *every* stored column once per
already-present record key, yielding `x = [0, 1, 1]` and `y = [0, 2, 2]`. -/
theorem C9_code_bug_eval :
    jsonEmit ⟨"hdr", [("x", [.jnum 0]), ("y", [.jnum 0])]⟩
        [("x", .scalar (.jnum 1)), ("y", .scalar (.jnum 2))] =
      .ok ⟨"hdr", [("x", [.jnum 0, .jnum 1, .jnum 1]),
                   ("y", [.jnum 0, .jnum 2, .jnum 2])]⟩ ∧
    [JScalar.jnum 0, .jnum 1, .jnum 1] ≠ [JScalar.jnum 0, .jnum 1] :=
  ⟨rfl, by decide⟩

theorem keysA_setA_sub {α : Type} (l : List (String × α)) (key k : String)
    (v : α) : k ∈ keysA (setA l key v) → k ∈ keysA l ∨ k = key := by
  induction l with
  | nil =>
    intro hk
    simp only [setA, keysA, List.map_cons, List.map_nil,
      List.mem_singleton] at hk
    exact Or.inr hk
  | cons hd tl ih =>
    obtain ⟨a, b⟩ := hd
    intro hk
    simp only [setA] at hk
    by_cases h : a = key
    · rw [if_pos h] at hk
      simp only [keysA, List.map_cons, List.mem_cons] at hk ⊢
      exact hk.elim (fun h1 => Or.inl (Or.inl h1)) (fun h1 => Or.inl (Or.inr h1))
    · rw [if_neg h] at hk
      simp only [keysA, List.map_cons, List.mem_cons] at hk ⊢
      rcases hk with h1 | h2
      · exact Or.inl (Or.inl h1)
      · rcases ih h2 with h3 | h3
        · exact Or.inl (Or.inr h3)
        · exact Or.inr h3

theorem formatField_pnan_units (units : List (String × PhysUnit)) (x : String) :
    (formatField units x .pnan).2.1 = units := by
  cases h : lookupA units x <;> simp [formatField, h, strToQuantity]

theorem formatField_units_some (units : List (String × PhysUnit)) (x : String)
    (v : PyValue) (u : PhysUnit) (h : lookupA units x = some u) :
    (formatField units x v).2.1 = units := by
  unfold formatField
  rw [h]
  cases v with
  | pstr s =>
    simp only [strToQuantity]
    cases hq : parseQuantity s with
    | none => rfl
    | some p =>
      obtain ⟨m, qu⟩ := p
      show ((if qu.dim = u.dim then _ else _ : String × _ × Nat)).2.1 = units
      split <;> rfl
  | pquant m qu =>
    show ((if qu.dim = u.dim then _ else _ : String × _ × Nat)).2.1 = units
    split <;> rfl
  | pbool b => rfl
  | pfloatV q => rfl
  | pintV z => rfl
  | pnan => rfl

theorem formatField_units_sub (units : List (String × PhysUnit)) (x : String)
    (v : PyValue) (k : String)
    (hk : k ∈ keysA (formatField units x v).2.1) : k ∈ keysA units ∨ k = x := by
  cases h : lookupA units x with
  | some u =>
    rw [formatField_units_some units x v u h] at hk
    exact Or.inl hk
  | none =>
    unfold formatField at hk
    rw [h] at hk
    cases v with
    | pquant m qu =>
      by_cases hd : qu.dim = "dimensionless"
      · rw [show (match PyValue.pquant m qu with
          | PyValue.pquant m qu =>
            if qu.dim = "dimensionless" then (pyFloatStr m, units, 0)
            else (pyFloatStr (m.mul qu.scale),
              setA units x ⟨qu.dim, ⟨1, 1⟩⟩, 0)
          | v => (pyRepr v, units, 0)) =
            (if qu.dim = "dimensionless" then (pyFloatStr m, units, 0)
             else (pyFloatStr (m.mul qu.scale),
               setA units x ⟨qu.dim, ⟨1, 1⟩⟩, 0)) from rfl, if_pos hd] at hk
        exact Or.inl hk
      · rw [show (match PyValue.pquant m qu with
          | PyValue.pquant m qu =>
            if qu.dim = "dimensionless" then (pyFloatStr m, units, 0)
            else (pyFloatStr (m.mul qu.scale),
              setA units x ⟨qu.dim, ⟨1, 1⟩⟩, 0)
          | v => (pyRepr v, units, 0)) =
            (if qu.dim = "dimensionless" then (pyFloatStr m, units, 0)
             else (pyFloatStr (m.mul qu.scale),
               setA units x ⟨qu.dim, ⟨1, 1⟩⟩, 0)) from rfl, if_neg hd] at hk
        exact keysA_setA_sub units x k _ hk
    | pstr s => exact Or.inl hk
    | pbool b => exact Or.inl hk
    | pfloatV q => exact Or.inl hk
    | pintV z => exact Or.inl hk
    | pnan => exact Or.inl hk

theorem formatGo_absent_nan (record : List (String × PyValue))
    (cols : List String) (units : List (String × PhysUnit))
    (hinv : ∀ k ∈ keysA units, (lookupA record k).isSome) :
    ∀ i c, cols.get? i = some c → lookupA record c = none →
      ((formatGo record units cols).1).get? i = some "nan" := by
  induction cols generalizing units with
  | nil => intro i c hc; simp at hc
  | cons x xs ih =>
    intro i c hc hrec
    cases i with
    | zero =>
      simp only [List.get?] at hc
      injection hc with hc
      subst hc
      have hxu : lookupA units x = none := by
        apply lookupA_eq_none
        intro hk
        have h2 := hinv x hk
        rw [hrec] at h2; simp at h2
      simp [formatGo, hrec, formatField, hxu, pyRepr]
    | succ n =>
      have hinv2 : ∀ k ∈ keysA
          ((formatField units x ((lookupA record x).getD .pnan)).2.1),
          (lookupA record k).isSome := by
        intro k hk
        cases hx : lookupA record x with
        | some w =>
          rcases formatField_units_sub units x _ k hk with h | rfl
          · exact hinv k h
          · rw [hx]; rfl
        | none =>
          rw [hx, Option.getD_none, formatField_pnan_units] at hk
          exact hinv k hk
      simp only [formatGo, List.get?]
      exact ih _ hinv2 n c (by simpa using hc) hrec

/-- C10.  For every record and every declared column list without unit
annotations (its parsed units mapping is empty), the formatter emits exactly
one field per declared column in declared order, substituting `nan` for
every column absent from the record, and the data line therefore always has
as many fields as the column-header line. -/
theorem C10_format_shape (columns : List String)
    (record : List (String × PyValue))
    (h : parseColumnsE columns = .ok []) :
    ((csvFormat columns [] record).1).length = columns.length ∧
    (∀ i c, columns.get? i = some c → lookupA record c = none →
      ((csvFormat columns [] record).1).get? i = some "nan") ∧
    (formatColumnHeaderFields columns).length =
      ((csvFormat columns [] record).1).length := by
  refine ⟨formatGo_length record [] columns, ?_, ?_⟩
  · exact formatGo_absent_nan record columns [] (by simp [keysA])
  · show (formatColumnHeaderFields columns).length =
      ((formatGo record [] columns).1).length
    rw [formatGo_length record [] columns]; rfl

/-- C10, witness: the two-column case with one column absent from the
record. -/
theorem C10_format_shape_witness :
    ((csvFormat ["a", "b"] [] [("a", .pstr "7")]).1).length = 2 ∧
    ((csvFormat ["a", "b"] [] [("a", .pstr "7")]).1).get? 1 = some "nan" := by
  obtain ⟨h1, h2, _⟩ := C10_format_shape ["a", "b"] [("a", .pstr "7")] (by rfl)
  exact ⟨h1, h2 1 "b" (by decide) (by decide)⟩

/-- C7, counterexample.  A CSV results object holds one in-memory row
(header count 4, as after `load` of a file with one parameter), but the file
has momentarily shrunk to a single comment line — a transiently inconsistent
read state.  The incremental re-read fails at the `pd.read_csv` call itself,
which sits *outside* the `try`, so `EmptyDataError` propagates to the caller
instead of being swallowed. -/
theorem C7_counterexample :
    (Table.mk ["x"] [["5"]]).rows ≠ [] ∧
    csvDataProperty ["#x"] ⟨4, some ⟨["x"], [["5"]]⟩, ["x"]⟩ =
      .error .emptyDataError :=
  ⟨by decide, rfl⟩

/-- C7, amended.  With a non-empty in-memory table, as long as the reader can
still be constructed (at least one parseable line remains past the skip
offset — always true while the append-only file still contains the rows
already materialized), the `data` property never propagates an exception; and
when the incremental read then fails (no data line beyond the consumed
replacement header row, so `pd.concat` raises), the in-memory state is
returned unchanged, value for value.  Only a file so short that the reader
cannot be constructed makes the exception propagate (the counterexample). -/
theorem C7_amended_holds (fileLines : List String) (hcnt : Int)
    (t : Table) (dcols : List String)
    (h2 : t.rows ≠ []) (h3 : hcnt ≠ -1)
    (h4 : csvLines (fileLines.drop (((t.rows.length : Int) + hcnt).toNat)) ≠ []) :
    (∃ st2, csvDataProperty fileLines ⟨hcnt, some t, dcols⟩ = .ok st2) ∧
    ((csvLines (fileLines.drop
        (((t.rows.length : Int) + hcnt).toNat))).tail = [] →
      csvDataProperty fileLines ⟨hcnt, some t, dcols⟩ =
        .ok ⟨hcnt, some t, dcols⟩) := by
  obtain ⟨hd, tl, hht⟩ : ∃ hd tl,
      csvLines (fileLines.drop (((t.rows.length : Int) + hcnt).toNat)) =
        hd :: tl := by
    cases hcl : csvLines (fileLines.drop (((t.rows.length : Int) + hcnt).toNat))
    · exact absurd hcl h4
    · exact ⟨_, _, rfl⟩
  have hni : ¬(t.rows.isEmpty = true) := by
    cases hrows : t.rows
    · exact absurd hrows h2
    · simp
  constructor
  · simp only [csvDataProperty, if_neg h3, hht]
    rw [if_neg hni]
    by_cases hh : tl.isEmpty = true
    · exact ⟨_, by rw [if_pos hh]⟩
    · exact ⟨_, by rw [if_neg hh]⟩
  · intro htl
    rw [hht] at htl
    simp only [List.tail_cons] at htl
    simp only [csvDataProperty, if_neg h3, hht]
    rw [if_neg hni, if_pos (by rw [htl]; rfl)]

/-- C7, witness for the amended theorem: one in-memory row, the file holding
exactly the header block, the column line and that one row; the remainder
past the skip offset is the single row line, the chunk concatenation fails,
and the state comes back unchanged. -/
theorem C7_amended_witness :
    csvDataProperty ["#a", "#b", "#c", "#d", "x", "5"]
        ⟨4, some ⟨["x"], [["5"]]⟩, ["x"]⟩ =
      .ok ⟨4, some ⟨["x"], [["5"]]⟩, ["x"]⟩ :=
  (C7_amended_holds ["#a", "#b", "#c", "#d", "x", "5"] 4 ⟨["x"], [["5"]]⟩ ["x"]
    (by decide) (by decide) (by decide)).2 (by decide)

/-- C8, evaluation at the failing input.  A `CSVResults` object constructed
over an existing file (one parameter, one data row) performs a full reload in
`__init__` but leaves `_header_count` at `-1`.  The first `data` access then
recomputes `_header_count` as `len(create_header()[-1].split(LINE_BREAK))` —
`[-1]` indexes the final *character* (the newline), whose split yields two
empty strings — so the count becomes `2` instead of the real `4` comment
lines, `skiprows` under-skips, and the already-loaded row is re-read and
appended again: the incremental path reports two rows where a full reload
reports one. -/
theorem C8_code_bug_eval :
    csvReload ["#Procedure: <m.C>", "#Parameters:", "#\tp: 1", "#Data:",
        "x", "5"] = .ok ⟨["x"], [["5"]]⟩ ∧
    csvDataProperty ["#Procedure: <m.C>", "#Parameters:", "#\tp: 1", "#Data:",
        "x", "5"] ⟨-1, some ⟨["x"], [["5"]]⟩, ["x"]⟩ =
      .ok ⟨2, some ⟨["x"], [["5"], ["5"]]⟩, ["x"]⟩ ∧
    (Table.mk ["x"] [["5"]]) ≠ ⟨["x"], [["5"], ["5"]]⟩ :=
  ⟨rfl, rfl, by decide⟩

/-! ## Intercalate and comment-stripping lemmas -/

theorem intercalate_one {α : Type} (d : α) (a : List α) :
    List.intercalate [d] [a] = a := by
  simp [List.intercalate]

theorem intercalate_two {α : Type} (d : α) (a b : List α) (tl : List (List α)) :
    List.intercalate [d] (a :: b :: tl) =
      a ++ d :: List.intercalate [d] (b :: tl) := by
  simp [List.intercalate, List.intersperse_cons_cons]

theorem intercalate_append_two {α : Type} (d : α) (A : List (List α))
    (x y : List α) (hA : A ≠ []) :
    List.intercalate [d] (A ++ [x, y]) =
      List.intercalate [d] A ++ d :: (x ++ d :: y) := by
  induction A with
  | nil => cases hA rfl
  | cons a A' ih =>
    cases A' with
    | nil =>
      rw [List.singleton_append, intercalate_two, intercalate_two,
        intercalate_one, intercalate_one]
    | cons a1 A'' =>
      rw [show (a :: a1 :: A'') ++ [x, y] = a :: (a1 :: (A'' ++ [x, y]))
        from rfl]
      rw [intercalate_two,
        show a1 :: (A'' ++ [x, y]) = (a1 :: A'') ++ [x, y] from rfl,
        ih (by simp), intercalate_two]
      simp [List.append_assoc]

theorem not_mem_intercalate {α : Type} (d c : α) (ls : List (List α))
    (hc : c ≠ d) (h : ∀ l ∈ ls, c ∉ l) : c ∉ List.intercalate [d] ls := by
  induction ls with
  | nil => simp [List.intercalate]
  | cons a tl ih =>
    cases tl with
    | nil =>
      rw [intercalate_one]
      exact h a (by simp)
    | cons b tl2 =>
      rw [intercalate_two]
      intro hm
      rcases List.mem_append.mp hm with h1 | h1
      · exact h a (by simp) h1
      · rcases List.mem_cons.mp h1 with rfl | h2
        · exact hc rfl
        · exact ih (fun l hl => h l (List.mem_cons_of_mem a hl)) h2

theorem takeWhile_ne_of_not_mem (l : List Char) (c : Char) (h : c ∉ l) :
    l.takeWhile (· ≠ c) = l := by
  induction l with
  | nil => rfl
  | cons a tl ih =>
    simp only [List.mem_cons, not_or] at h
    have hac : a ≠ c := fun hh => h.1 hh.symm
    simp [List.takeWhile_cons, hac, ih h.2]
    intro x hx hxc
    exact h.2 (hxc ▸ hx)

theorem stripAtComment_hash (s : String) : stripAtComment ("#" ++ s) = "" := by
  unfold stripAtComment
  have hd : ("#" ++ s).data = '#' :: s.data := by
    have h1 : "#".data = ['#'] := rfl
    simp [String.data_append, h1]
  rw [hd]
  simp [List.takeWhile_cons]

theorem stripAtComment_self (s : String) (h : '#' ∉ s.data) :
    stripAtComment s = s := by
  unfold stripAtComment
  rw [takeWhile_ne_of_not_mem s.data '#' h]

theorem csvLines_append (A B : List String) :
    csvLines (A ++ B) = csvLines A ++ csvLines B := by
  simp [csvLines, List.filter_append]

theorem csvLines_hash_map (L : List String) :
    csvLines (L.map (fun l => "#" ++ l)) = [] := by
  induction L with
  | nil => rfl
  | cons a tl ih =>
    simp only [List.map_cons, csvLines, List.filter_cons] at ih ⊢
    rw [stripAtComment_hash]
    simpa using ih

theorem splitFields_labelsLine (cols : List String)
    (h : ∀ c ∈ cols, ',' ∉ c.data) (hne : cols ≠ []) :
    splitFields (labelsLine cols) = cols := by
  unfold splitFields labelsLine
  show (List.splitOn ',' (List.intercalate [','] (cols.map String.data))).map
      String.mk = cols
  have h2 : ∀ l ∈ cols.map String.data, ',' ∉ l := by simpa using h
  have h3 : cols.map String.data ≠ [] := by
    intro hx; exact hne (List.map_eq_nil_iff.mp hx)
  rw [List.splitOn_intercalate (cols.map String.data) ',' h2 h3]
  have hmk : ∀ s : String, String.mk s.data = s := fun s => rfl
  simp [List.map_map, Function.comp_def, hmk]

theorem labelsLine_ne_empty (c0 : String) (rest : List String) (h : c0 ≠ "") :
    labelsLine (c0 :: rest) ≠ "" := by
  intro he
  have hdata : (labelsLine (c0 :: rest)).data = [] := by rw [he]
  cases rest with
  | nil =>
    rw [show (labelsLine [c0]).data =
      List.intercalate [','] [c0.data] from rfl, intercalate_one] at hdata
    exact h (by cases c0; simp_all)
  | cons c1 rest2 =>
    rw [show (labelsLine (c0 :: c1 :: rest2)).data =
      List.intercalate [','] (c0.data :: c1.data :: rest2.map String.data)
        from rfl, intercalate_two] at hdata
    rcases List.append_eq_nil.mp hdata with ⟨_, h2⟩
    exact List.cons_ne_nil _ _ h2

theorem createHeader_data :
    ∀ fq params, createHeader fq params =
      joinLines (createHeaderLines fq params) ++ "\n" := fun _ _ => rfl

theorem labelsLine_no_newline (cols : List String)
    (h : ∀ c ∈ cols, '\n' ∉ c.data) : '\n' ∉ (labelsLine cols).data := by
  show '\n' ∉ List.intercalate [','] (cols.map String.data)
  exact not_mem_intercalate ',' '\n' _ (by decide)
    (by intro l hl; obtain ⟨c, hc, rfl⟩ := List.mem_map.mp hl; exact h c hc)

theorem createHeaderLines_no_newline (fq : String)
    (params : List (String × String)) (hfq : '\n' ∉ fq.data)
    (hnames : ∀ p ∈ params, '\n' ∉ p.1.data) :
    ∀ l ∈ createHeaderLines fq params, '\n' ∉ l.data := by
  intro l hl
  simp only [createHeaderLines, List.mem_map] at hl
  obtain ⟨b, hb, rfl⟩ := hl
  simp only [headerBodyLines, List.mem_cons, List.mem_append,
    List.mem_map, List.mem_singleton, List.not_mem_nil, or_false] at hb
  have hhash : ∀ s : String, '\n' ∉ s.data → '\n' ∉ ("#" ++ s).data := by
    intro s hs hm
    rw [String.data_append] at hm
    rcases List.mem_append.mp hm with h1 | h1
    · exact absurd h1 (by decide)
    · exact hs h1
  rcases hb with rfl | rfl | ⟨⟨n, v⟩, hp, rfl⟩ | rfl
  · apply hhash
    intro hm
    simp only [String.data_append] at hm
    rcases List.mem_append.mp hm with h1 | h1
    · rcases List.mem_append.mp h1 with h2 | h2
      · exact absurd h2 (by decide)
      · exact hfq h2
    · exact absurd h1 (by decide)
  · exact hhash _ (by decide)
  · apply hhash
    intro hm
    simp only [String.data_append] at hm
    rcases List.mem_append.mp hm with h1 | h1
    · rcases List.mem_append.mp h1 with h2 | h2
      · rcases List.mem_append.mp h2 with h3 | h3
        · exact absurd h3 (by decide)
        · exact hnames ⟨n, v⟩ hp h3
      · exact absurd h2 (by decide)
    · exact unicodeEscape_no_newline v h1
  · exact hhash _ (by decide)

theorem createCsvText_eq (fq : String) (params : List (String × String))
    (cols : List String) :
    createCsvText fq params cols =
      joinLines (createHeaderLines fq params ++ [labelsLine cols, ""]) := by
  have hA : (createHeaderLines fq params).map String.data ≠ [] := by
    simp [createHeaderLines, headerBodyLines]
  apply String.ext
  show (createCsvText fq params cols).data =
    List.intercalate ['\n']
      ((createHeaderLines fq params ++ [labelsLine cols, ""]).map String.data)
  rw [List.map_append,
    show ([labelsLine cols, ""].map String.data) =
      [(labelsLine cols).data, ([] : List Char)] from rfl,
    intercalate_append_two '\n' _ _ _ hA]
  show ((joinLines (createHeaderLines fq params) ++ "\n") ++ labelsLine cols
      ++ "\n").data = _
  simp only [String.data_append]
  rw [show (joinLines (createHeaderLines fq params)).data =
      List.intercalate ['\n'] ((createHeaderLines fq params).map String.data)
      from rfl]
  simp [List.append_assoc]

/-- C6, counterexample.  A procedure declaring the single data column `a,b`
(a name containing the delimiter): the freshly created file's reload parses
the label line back as *two* columns `a` and `b`, so the reloaded column
list differs from the declared one. -/
theorem C6_counterexample :
    csvReloadText (createCsvText "m.C" [] ["a,b"]) = .ok ⟨["a", "b"], []⟩ ∧
    (["a", "b"] : List String) ≠ ["a,b"] :=
  ⟨rfl, by decide⟩

/-- C6, amended.  For the CSV variant the zero-row round trip holds provided
the declared column names are well-formed for the textual format — none
contains the delimiter, the comment character or a line break and none is
empty (and parameter names contain no line break, as the header writes them
unescaped): reloading a freshly created file yields exactly the declared
columns and zero rows.  For the JSON variant it holds unconditionally. -/
theorem C6_amended_holds (fq : String) (params : List (String × String))
    (cols : List String) (hfq : '\n' ∉ fq.data)
    (hnames : ∀ p ∈ params, '\n' ∉ p.1.data)
    (hcols : ∀ c ∈ cols, ',' ∉ c.data ∧ '#' ∉ c.data ∧ '\n' ∉ c.data ∧ c ≠ "")
    (hne : cols ≠ []) :
    csvReloadText (createCsvText fq params cols) = .ok ⟨cols, []⟩ ∧
    ∀ hdr dcols, jsonReload (jsonCreateFile hdr) dcols = ⟨dcols, []⟩ := by
  constructor
  · have hsplit : splitLines (createCsvText fq params cols) =
        createHeaderLines fq params ++ [labelsLine cols, ""] := by
      rw [createCsvText_eq]
      apply splitLines_joinLines
      · intro l hl
        rcases List.mem_append.mp hl with h1 | h1
        · exact createHeaderLines_no_newline fq params hfq hnames l h1
        · rcases List.mem_cons.mp h1 with rfl | h2
          · exact labelsLine_no_newline cols (fun c hc => (hcols c hc).2.2.1)
          · rcases List.mem_singleton.mp h2 with rfl
            decide
      · simp
    have hlabne : labelsLine cols ≠ "" := by
      cases cols with
      | nil => exact absurd rfl hne
      | cons c0 rest => exact labelsLine_ne_empty c0 rest (hcols c0 (by simp)).2.2.2
    have hcl : csvLines (createHeaderLines fq params ++ [labelsLine cols, ""]) =
        [labelsLine cols] := by
      rw [csvLines_append,
        show createHeaderLines fq params =
          (headerBodyLines fq params).map (fun l => "#" ++ l) from rfl,
        csvLines_hash_map]
      have hsc : stripAtComment (labelsLine cols) = labelsLine cols := by
        apply stripAtComment_self
        show '#' ∉ List.intercalate [','] (cols.map String.data)
        apply not_mem_intercalate ',' '#' _ (by decide)
        intro l hl
        obtain ⟨c, hc, rfl⟩ := List.mem_map.mp hl
        exact (hcols c hc).2.1
      have hemp : stripAtComment "" = "" := rfl
      simp [csvLines, hsc, hemp, hlabne]
    unfold csvReloadText
    rw [hsplit]
    unfold csvReload
    rw [hcl]
    show (Except.ok (Table.mk (splitFields (labelsLine cols)) []) :
        Except PyErr Table) = Except.ok (Table.mk cols [])
    rw [splitFields_labelsLine cols (fun c hc => (hcols c hc).1) hne]
  · intro hdr dcols
    rfl

/-- C6, witness for the amended theorem: one parameter, the columns
`Voltage (V)` and `Current (A)`, reloaded as created. -/
theorem C6_amended_witness :
    csvReloadText (createCsvText "m.C" [("p", "1")]
        ["Voltage (V)", "Current (A)"]) =
      .ok ⟨["Voltage (V)", "Current (A)"], []⟩ :=
  (C6_amended_holds "m.C" [("p", "1")] ["Voltage (V)", "Current (A)"]
    (by decide) (by decide) (by decide) (by decide)).1

/-! ## Header-codec round-trip lemmas -/

/-- Python `text[:-1]` (as `load` applies to the accumulated header). -/
def pyDropLast (s : String) : String :=
  String.mk s.data.dropLast

theorem pyDropLast_newline (s : String) : pyDropLast (s ++ "\n") = s := by
  unfold pyDropLast
  apply String.ext
  show ((s ++ "\n").data).dropLast = s.data
  rw [String.data_append, show ("\n" : String).data = ['\n'] from rfl,
    List.dropLast_concat]

theorem partitionSep_append (n v : List Char) (h : partitionSep n = none) :
    partitionSep (n ++ ':' :: ' ' :: v) = some (n, v) := by
  induction n with
  | nil => rfl
  | cons c rest ih =>
    cases rest with
    | nil =>
      show partitionSep (c :: ':' :: ' ' :: v) = some ([c], v)
      simp only [partitionSep]
      rw [if_neg (by simp), if_pos (by simp)]
      rfl
    | cons d rest2 =>
      by_cases hc : c = ':' ∧ d = ' '
      · rw [partitionSep, if_pos hc] at h
        exact absurd h (by simp)
      · rw [partitionSep, if_neg hc] at h
        have h2 : partitionSep (d :: rest2) = none := by
          cases hp : partitionSep (d :: rest2)
          · rfl
          · rw [hp] at h; simp [Option.map] at h
        show partitionSep (c :: d :: (rest2 ++ ':' :: ' ' :: v)) = _
        rw [partitionSep, if_neg hc,
          show d :: (rest2 ++ ':' :: ' ' :: v) =
            (d :: rest2) ++ ':' :: ' ' :: v from rfl,
          ih h2]
        rfl

theorem splitLastDot_no_dot (l : List Char) (h : '.' ∉ l) :
    splitLastDot l = (none, l) := by
  induction l with
  | nil => rfl
  | cons c rest ih =>
    simp only [List.mem_cons, not_or] at h
    rw [splitLastDot, ih h.2]
    show (if c = '.' then (some ([] : List Char), rest)
      else (none, c :: rest)) = (none, c :: rest)
    rw [if_neg (fun hc => h.1 hc.symm)]

theorem splitLastDot_append (m cl : List Char) (h : '.' ∉ cl) :
    splitLastDot (m ++ '.' :: cl) = (some m, cl) := by
  induction m with
  | nil =>
    show splitLastDot ('.' :: cl) = (some [], cl)
    rw [splitLastDot, splitLastDot_no_dot cl h]
    show (if ('.' : Char) = '.' then (some ([] : List Char), cl)
      else (none, '.' :: cl)) = (some [], cl)
    rw [if_pos rfl]
  | cons c m2 ih =>
    show splitLastDot (c :: (m2 ++ '.' :: cl)) = (some (c :: m2), cl)
    rw [splitLastDot, ih]

theorem takeWhile_until (l r : List Char) (c : Char) (h : c ∉ l) :
    (l ++ c :: r).takeWhile (· ≠ c) = l := by
  induction l with
  | nil => simp [List.takeWhile_cons]
  | cons a tl ih =>
    simp only [List.mem_cons, not_or] at h
    have hac : a ≠ c := fun hh => h.1 hh.symm
    rw [List.cons_append, List.takeWhile_cons, if_pos (by simp [hac]), ih h.2]

theorem extractAngle_lit (X : List Char) :
    extractAngle ("Procedure: <".data ++ X) =
      (if X.takeWhile (· ≠ '>') ≠ [] ∧ '>' ∈ X
       then some (X.takeWhile (· ≠ '>')) else none) := by
  rw [show "Procedure: <".data =
    ['P', 'r', 'o', 'c', 'e', 'd', 'u', 'r', 'e', ':', ' ', '<'] from rfl]
  simp only [List.cons_append, List.nil_append]
  rw [extractAngle, if_neg (by decide)]
  rw [extractAngle, if_neg (by decide)]
  rw [extractAngle, if_neg (by decide)]
  rw [extractAngle, if_neg (by decide)]
  rw [extractAngle, if_neg (by decide)]
  rw [extractAngle, if_neg (by decide)]
  rw [extractAngle, if_neg (by decide)]
  rw [extractAngle, if_neg (by decide)]
  rw [extractAngle, if_neg (by decide)]
  rw [extractAngle, if_neg (by decide)]
  rw [extractAngle, if_neg (by decide)]
  rw [extractAngle, if_pos rfl]

theorem parseProcLine_create (module cls : String)
    (hmodg : '>' ∉ module.data) (hclsd : '.' ∉ cls.data)
    (hclsg : '>' ∉ cls.data) :
    parseProcLine ("Procedure: <" ++ (module ++ "." ++ cls) ++ ">").data =
      .ok (some module, cls) := by
  unfold parseProcLine
  have hdata : ("Procedure: <" ++ (module ++ "." ++ cls) ++ ">").data =
      "Procedure: <".data ++ ((module.data ++ '.' :: cls.data) ++ '>' :: []) := by
    simp [String.data_append]
  rw [hdata, extractAngle_lit]
  have hnm : '>' ∉ module.data ++ '.' :: cls.data := by
    intro hm
    rcases List.mem_append.mp hm with h1 | h1
    · exact hmodg h1
    · rcases List.mem_cons.mp h1 with h2 | h2
      · exact absurd h2 (by decide)
      · exact hclsg h2
  rw [takeWhile_until _ _ '>' hnm]
  rw [if_pos ⟨by simp, by simp⟩]
  show (match splitLastDot (module.data ++ '.' :: cls.data) with
      | (m, cl) => (Except.ok (m.map String.mk, String.mk cl) :
          Except PyErr (Option String × String))) = .ok (some module, cls)
  rw [splitLastDot_append module.data cls.data hclsd]
  rfl

theorem escChar_id (c : Char) (h : c ∉ ['\n', '\t', '\r', '\\']) :
    escChar c = [c] := by
  simp only [List.mem_cons, not_or, List.not_mem_nil] at h
  unfold escChar
  rw [if_neg h.1, if_neg h.2.1, if_neg h.2.2.1, if_neg h.2.2.2.1]

theorem escList_id (l : List Char)
    (h : ∀ c ∈ l, c ∉ ['\n', '\t', '\r', '\\']) :
    l.foldr (fun c acc => escChar c ++ acc) [] = l := by
  induction l with
  | nil => rfl
  | cons c tl ih =>
    rw [List.foldr_cons, escChar_id c (h c (by simp)),
      ih (fun d hd => h d (by simp [hd]))]
    rfl

theorem unicodeEscape_id (v : String)
    (h : ∀ c ∈ v.data, c ∉ ['\n', '\t', '\r', '\\']) : unicodeEscape v = v := by
  unfold unicodeEscape
  apply String.ext
  show v.data.foldr (fun c acc => escChar c ++ acc) [] = v.data
  exact escList_id v.data h

theorem setA_fresh {α : Type} (l : List (String × α)) (k : String) (v : α)
    (h : k ∉ keysA l) : setA l k v = l ++ [(k, v)] := by
  induction l with
  | nil => rfl
  | cons hd tl ih =>
    obtain ⟨a, b⟩ := hd
    simp only [keysA, List.map_cons, List.mem_cons, not_or] at h
    simp only [setA, List.cons_append]
    rw [if_neg (fun he => h.1 he.symm), ih (by simpa [keysA] using h.2)]

theorem keysA_append {α : Type} (l1 l2 : List (String × α)) :
    keysA (l1 ++ l2) = keysA l1 ++ keysA l2 := by
  simp [keysA]

theorem isPrefixOf_append_self (l X : List Char) :
    l.isPrefixOf (l ++ X) = true := by
  induction l with
  | nil => simp [List.isPrefixOf]
  | cons c tl ih => simp [List.isPrefixOf, ih]

theorem csvHeaderStep_param (st : HeadSt) (n v : String)
    (hn : partitionSep n.data = none) :
    csvHeaderStep st ("#" ++ ("\t" ++ n ++ ": " ++ unicodeEscape v)) =
      .ok ⟨setA st.params n (unicodeEscape v), st.pmod, st.pcls⟩ := by
  unfold csvHeaderStep
  have hd : ("#" ++ ("\t" ++ n ++ ": " ++ unicodeEscape v)).data =
      '#' :: '\t' :: (n.data ++ ':' :: ' ' :: (unicodeEscape v).data) := by
    simp [String.data_append]
  rw [hd]
  have hp2 : (['P', 'r', 'o', 'c', 'e', 'd', 'u', 'r', 'e'].isPrefixOf
      ('\t' :: (n.data ++ ':' :: ' ' :: (unicodeEscape v).data))) = false := by
    simp [List.isPrefixOf]
  have hmk : ∀ s : String, String.mk s.data = s := fun s => rfl
  simp [hp2, partitionSep_append n.data _ hn, hmk]

theorem csvHeaderStep_proc (st : HeadSt) (module cls : String)
    (hmodg : '>' ∉ module.data) (hclsd : '.' ∉ cls.data)
    (hclsg : '>' ∉ cls.data) :
    csvHeaderStep st ("#" ++ ("Procedure: <" ++ (module ++ "." ++ cls) ++ ">")) =
      .ok ⟨st.params, some module, some (.asString cls)⟩ := by
  unfold csvHeaderStep
  have hd : ("#" ++ ("Procedure: <" ++ (module ++ "." ++ cls) ++ ">")).data =
      '#' :: ("Procedure: <" ++ (module ++ "." ++ cls) ++ ">").data := by
    simp [String.data_append]
  rw [hd]
  have hpre : "Procedure".data.isPrefixOf
      ("Procedure: <" ++ (module ++ "." ++ cls) ++ ">").data = true := by
    have h2 : ("Procedure: <" ++ (module ++ "." ++ cls) ++ ">").data =
        "Procedure".data ++
          (": <".data ++ ((module ++ "." ++ cls).data ++ ['>'])) := by
      simp [String.data_append]
    rw [h2]
    exact isPrefixOf_append_self _ _
  rw [if_pos (show ('#' ::
    ("Procedure: <" ++ (module ++ "." ++ cls) ++ ">").data).headD ' ' = '#'
    from rfl)]
  simp only [List.tail_cons]
  rw [if_pos hpre, parseProcLine_create module cls hmodg hclsd hclsg]

theorem csvHeaderScan_params (ps : List (String × String)) (st : HeadSt)
    (rest : List String)
    (hn : ∀ p ∈ ps, partitionSep p.1.data = none)
    (hfresh : ∀ p ∈ ps, p.1 ∉ keysA st.params)
    (hnodup : (ps.map Prod.fst).Nodup) :
    csvHeaderScan st
        (ps.map (fun p => "#" ++ ("\t" ++ p.1 ++ ": " ++ unicodeEscape p.2))
          ++ rest) =
      csvHeaderScan
        ⟨st.params ++ ps.map (fun p => (p.1, unicodeEscape p.2)),
          st.pmod, st.pcls⟩ rest := by
  induction ps generalizing st with
  | nil =>
    obtain ⟨a, b, c⟩ := st
    simp
  | cons p ps2 ih =>
    obtain ⟨n, v⟩ := p
    simp only [List.map_cons, List.cons_append, csvHeaderScan]
    rw [csvHeaderStep_param st n v (hn ⟨n, v⟩ (by simp))]
    show csvHeaderScan ⟨setA st.params n (unicodeEscape v), st.pmod, st.pcls⟩
        (ps2.map (fun p => "#" ++ ("\t" ++ p.1 ++ ": " ++ unicodeEscape p.2))
          ++ rest) = _
    rw [setA_fresh st.params n (unicodeEscape v) (hfresh ⟨n, v⟩ (by simp))]
    rw [ih ⟨st.params ++ [(n, unicodeEscape v)], st.pmod, st.pcls⟩
      (fun q hq => hn q (by simp [hq]))
      (fun q hq => by
        rw [keysA_append]
        simp only [List.mem_append, not_or]
        constructor
        · exact hfresh q (by simp [hq])
        · simp only [keysA, List.map_cons, List.map_nil, List.mem_singleton]
          intro he
          simp only [List.map_cons, List.nodup_cons] at hnodup
          exact hnodup.1 (he ▸ List.mem_map_of_mem Prod.fst hq))
      (by simp only [List.map_cons, List.nodup_cons] at hnodup; exact hnodup.2)]
    simp

theorem csvHeaderScan_cons_ok (st st2 : HeadSt) (l : String)
    (ls : List String) (h : csvHeaderStep st l = .ok st2) :
    csvHeaderScan st (l :: ls) = csvHeaderScan st2 ls := by
  conv_lhs => rw [csvHeaderScan]
  rw [h]

/-- C4, counterexample.  The claim composes `create_header` with
`get_params_from_header` directly.  First conjunct: the raw `create_header`
output ends with a line break, so its split contains a final empty line,
which is not comment-prefixed — decoding raises the malformed-header
`ValueError` for *every* procedure.  Second and third conjuncts: even with
that final line break stripped (as `load` does), a string parameter holding
an embedded newline (here `a`-newline-`b`) decodes to its escaped form
`a\nb` (backslash + n written out), not to the original two-line string —
the codec never unescapes. -/
theorem C4_counterexample :
    csvGetParamsFromHeader (createHeader "mymod.MyProc" [("s", "a\nb")])
        none = .error .valueError ∧
    csvGetParamsFromHeader
        (pyDropLast (createHeader "mymod.MyProc" [("s", "a\nb")])) none =
      .ok ([("s", "a\\nb")], some "mymod", some (.asString "MyProc")) ∧
    ("a\\nb" : String) ≠ "a\nb" :=
  ⟨rfl, rfl, by decide⟩

/-- C4, amended.  Decoding the header text with its final line break
removed (exactly what `load` hands to the parser) recovers the original
module and class identity and, for each parameter in order, its
unicode-escaped serialization; the values are recovered verbatim exactly
when escaping is the identity on them (no newline, tab, carriage return or
backslash), so newline-bearing values come back escaped, not as the
original strings.  Well-formedness assumptions: module and class names free
of the regex delimiters and newlines, the class name dot-free, parameter
names newline-free and containing no colon-space separator, and parameter
names pairwise distinct. -/
theorem C4_amended_holds (module cls : String)
    (params : List (String × String))
    (hmod : '>' ∉ module.data ∧ '\n' ∉ module.data)
    (hcls : '.' ∉ cls.data ∧ '>' ∉ cls.data ∧ '\n' ∉ cls.data)
    (hnames : ∀ p ∈ params, '\n' ∉ p.1.data ∧ partitionSep p.1.data = none)
    (hnodup : (params.map Prod.fst).Nodup) :
    csvGetParamsFromHeader
        (pyDropLast (createHeader (module ++ "." ++ cls) params)) none =
      .ok (params.map (fun p => (p.1, unicodeEscape p.2)), some module,
        some (.asString cls)) ∧
    (∀ v : String, (∀ c ∈ v.data, c ∉ ['\n', '\t', '\r', '\\']) →
      unicodeEscape v = v) := by
  constructor
  · have hfq : '\n' ∉ (module ++ "." ++ cls).data := by
      intro hm
      simp only [String.data_append] at hm
      rcases List.mem_append.mp hm with h1 | h1
      · rcases List.mem_append.mp h1 with h2 | h2
        · exact hmod.2 h2
        · exact absurd h2 (by decide)
      · exact hcls.2.2 h1
    rw [show createHeader (module ++ "." ++ cls) params =
      joinLines (createHeaderLines (module ++ "." ++ cls) params) ++ "\n"
      from rfl, pyDropLast_newline]
    unfold csvGetParamsFromHeader
    rw [splitLines_joinLines _
      (createHeaderLines_no_newline (module ++ "." ++ cls) params hfq
        (fun p hp => (hnames p hp).1))
      (by simp [createHeaderLines, headerBodyLines])]
    rw [show createHeaderLines (module ++ "." ++ cls) params =
      ("#" ++ ("Procedure: <" ++ (module ++ "." ++ cls) ++ ">")) ::
        ("#" ++ "Parameters:") ::
        (params.map (fun p => "#" ++ ("\t" ++ p.1 ++ ": " ++
          unicodeEscape p.2)) ++ ["#" ++ "Data:"]) by
      simp [createHeaderLines, headerBodyLines, List.map_map,
        Function.comp_def]]
    rw [csvHeaderScan_cons_ok _ _ _ _
      (csvHeaderStep_proc ⟨[], none, none⟩ module cls hmod.1 hcls.1 hcls.2.1)]
    rw [csvHeaderScan_cons_ok _ _ _ _
      (show csvHeaderStep ⟨[], some module, some (.asString cls)⟩
        ("#" ++ "Parameters:") =
        .ok ⟨[], some module, some (.asString cls)⟩ from rfl)]
    rw [csvHeaderScan_params params ⟨[], some module, some (.asString cls)⟩
      ["#" ++ "Data:"] (fun p hp => (hnames p hp).2)
      (fun p _ => by simp [keysA]) hnodup]
    simp only [List.nil_append]
    rw [csvHeaderScan_cons_ok _ _ _ _
      (show csvHeaderStep ⟨params.map (fun p => (p.1, unicodeEscape p.2)),
          some module, some (.asString cls)⟩ ("#" ++ "Data:") =
        .ok ⟨params.map (fun p => (p.1, unicodeEscape p.2)),
          some module, some (.asString cls)⟩ from rfl)]
    rfl
  · exact unicodeEscape_id

/-- C4, witness for the amended theorem: one parameter `Voltage (V)` with
value `2.5`, module `mymod`, class `MyProc`. -/
theorem C4_amended_witness :
    csvGetParamsFromHeader
        (pyDropLast (createHeader ("mymod" ++ "." ++ "MyProc")
          [("Voltage (V)", "2.5")])) none =
      .ok ([("Voltage (V)", "2.5")].map (fun p => (p.1, unicodeEscape p.2)),
        some "mymod", some (.asString "MyProc")) :=
  (C4_amended_holds "mymod" "MyProc" [("Voltage (V)", "2.5")]
    (by decide) (by decide) (by decide) (by decide)).1

end PyMeasure
